import Mathlib

/-!
Shallow embedding of the NestJs-File-Storage driver layer.

Conventions used throughout:
* JavaScript `Buffer | string` content is modelled as `String` (only
  equality and concatenation matter to the claims).
* Millisecond timestamps (`Date.now()`, `Date.getTime()`) are `Nat`.
* JavaScript truthiness is made explicit: `0` and the empty string are
  falsy, which is load-bearing for `putTimed`'s `options.ttl ? ... :`.
* A JS `Map`/plain object used as a dictionary is an association list
  with unique keys; `delete obj[k]` removes every binding of `k`
  (equivalent on unique-key lists).
* Asynchronous methods returning `Promise<T>` become functions returning
  `Except String T` (rejection carries the `Error` message) paired with
  the updated state where the operation mutates state.
-/

namespace NestFS

/-- JS truthiness of an optional string (`undefined` and `""` are falsy). -/
def truthyStr : Option String → Bool
  | some s => s ≠ ""
  | none => false

/-- JS truthiness of an optional number (`undefined` and `0` are falsy). -/
def truthyNat : Option Nat → Bool
  | some n => n ≠ 0
  | none => false

/-- Association-list lookup (first binding wins, as in a JS `Map`). -/
def lookupA {α : Type} : List (String × α) → String → Option α
  | [], _ => none
  | (k, v) :: rest, key => if k = key then some v else lookupA rest key

/-- Update a key's binding in place, appending if absent (JS `map.set` /
`obj[k] = v` insertion-order semantics). -/
def setA {α : Type} : List (String × α) → String → α → List (String × α)
  | [], key, v => [(key, v)]
  | (k, w) :: rest, key, v =>
    if k = key then (k, v) :: rest else (k, w) :: setA rest key v

/-- Remove a key (JS `map.delete` / `delete obj[k]`); on unique-key lists
this is exactly deletion of the one binding. -/
def removeA {α : Type} (l : List (String × α)) (key : String) : List (String × α) :=
  l.filter (fun p => p.1 ≠ key)

/-- `path.join(a, b)` for the clean (no dot-segment, no duplicated slash)
relative paths the claims use. -/
def pathJoin (a b : String) : String :=
  if a = "" then b else a ++ "/" ++ b

/-- `s.replace(/^\/+/, '')`. -/
def stripLeadingSlashes (s : String) : String :=
  String.mk (s.data.dropWhile (fun c => c = '/'))

/-- `s.replace(/\/+$/, '')`. -/
def stripTrailingSlashes (s : String) : String :=
  String.mk (((s.data.reverse.dropWhile (fun c => c = '/'))).reverse)

/-- Accumulating splitter behind `toSegs` (the segment built so far is
kept reversed). -/
def toSegsAux : List Char → List Char → List String
  | [], acc => [String.mk acc.reverse]
  | c :: cs, acc =>
    if c = '/' then String.mk acc.reverse :: toSegsAux cs []
    else toSegsAux cs (c :: acc)

/-- Split a slash-separated relative path into its segments, as
`s.split('/')` would (`""` denotes the root itself, i.e. no segments). -/
def toSegs (s : String) : List String :=
  if s = "" then [] else toSegsAux s.data []

/-- Whether `s` starts with `pfx` (`String.startsWith`, stated over the
character lists). -/
def strStartsWith (s pfx : String) : Bool :=
  pfx.data.isPrefixOf s.data

/-- Rejoin path segments with `/` (inverse of `toSegs` on clean paths). -/
def segsToStr (segs : List String) : String :=
  String.intercalate "/" segs

/-! ## A POSIX directory tree, for the local-filesystem driver -/

/-- A node of the local filesystem: a regular file with its byte content,
or a directory with named entries. -/
inductive Ent
  | file (content : String)
  | dir (entries : List (String × Ent))
deriving Repr

/-- Whether an entry is a regular file (`dirent.isDirectory() === false`). -/
def isFile : Ent → Bool
  | .file _ => true
  | .dir _ => false

/-- Resolve a segment path to the entry it names, if any
(used for `fs.access` and for `fs.readdir`'s target). -/
def resolve : Ent → List String → Option Ent
  | e, [] => some e
  | .file _, _ :: _ => none
  | .dir es, x :: rest => match lookupA es x with
    | some e => resolve e rest
    | none => none

/-- `fs.readFile`: the content of the regular file at the path, or an
error (`none`) when absent or a directory. -/
def readFile : Ent → List String → Option String
  | .file c, [] => some c
  | .dir _, [] => none
  | .file _, _ :: _ => none
  | .dir es, x :: rest => match lookupA es x with
    | some e => readFile e rest
    | none => none

/-- `fs.mkdir(dirname, {recursive: true})` followed by `fs.writeFile`:
creates all missing intermediate directories and overwrites the file.
Fails (`none`) when a path component is an existing regular file or the
target is an existing directory. -/
def writeFile : Ent → List String → String → Option Ent
  | _, [], _ => none
  | .file _, _ :: _, _ => none
  | .dir es, [x], c =>
    match lookupA es x with
    | some (.dir _) => none
    | _ => some (.dir (setA es x (.file c)))
  | .dir es, x :: y :: rest, c =>
    match lookupA es x with
    | some e => (writeFile e (y :: rest) c).map (fun e' => .dir (setA es x e'))
    | none => (writeFile (.dir []) (y :: rest) c).map (fun e' => .dir (setA es x e'))

/-- `fs.unlink`: removes the regular file at the path; errors (`none`)
when absent or a directory. -/
def unlink : Ent → List String → Option Ent
  | _, [] => none
  | .file _, _ :: _ => none
  | .dir es, [x] =>
    match lookupA es x with
    | some (.file _) => some (.dir (removeA es x))
    | _ => none
  | .dir es, x :: y :: rest =>
    match lookupA es x with
    | some e => (unlink e (y :: rest)).map (fun e' => .dir (setA es x e'))
    | none => none

/-! ## `src/drivers/local.driver.ts` — `LocalStorageDriver`

The driver resolves every relative path under `config.root` via
`fullPath` and then calls node `fs` primitives; the tree `t` below is
the machine's filesystem. -/

/-- `putTimed`-style options `{ expiresAt?, ttl?, visibility? }`
(visibility is irrelevant to the claims and omitted;
`expiresAt` is already `Date.getTime()` milliseconds). -/
structure TimedOpts where
  expiresAt : Option Nat := none
  ttl : Option Nat := none
deriving Repr, DecidableEq

/-- The expiry instant `putTimed` computes:
`options.expiresAt ? options.expiresAt.getTime() : options.ttl ? Date.now() + options.ttl * 1000 : undefined`.
A `Date` object is always truthy, but `ttl === 0` is falsy. -/
def computedExpiry (now : Nat) (o : TimedOpts) : Option Nat :=
  match o.expiresAt with
  | some t => some t
  | none => match o.ttl with
    | some ttl => if ttl ≠ 0 then some (now + ttl * 1000) else none
    | none => none

namespace LocalStorageDriver

/-- `fullPath`: `path.join(this.config.root || '', relPath)`. -/
def fullPath (root rel : String) : String := pathJoin root rel

/-- `put`: `fs.mkdir(dirname, {recursive:true})` then `fs.writeFile`
(the visibility branch does not affect content and is omitted). -/
def put (root : String) (t : Ent) (rel content : String) : Option Ent :=
  writeFile t (toSegs (fullPath root rel)) content

/-- `get`: `fs.readFile(this.fullPath(relPath))`. -/
def get (root : String) (t : Ent) (rel : String) : Option String :=
  readFile t (toSegs (fullPath root rel))

/-- `delete`: `fs.unlink(this.fullPath(relPath))`. -/
def delete (root : String) (t : Ent) (rel : String) : Option Ent :=
  unlink t (toSegs (fullPath root rel))

/-- `exists` (Lean keyword, hence `fileExists`): `fs.access(..., F_OK)`
returning `true`, every error converted to `false`. -/
def fileExists (root : String) (t : Ent) (rel : String) : Bool :=
  (resolve t (toSegs (fullPath root rel))).isSome

/-- The body of `listFiles` specialised to the subtree the recursion has
reached: `dirp` is the `dir` argument of the source call (segments),
`e` the entry `fs.readdir` enumerates.  A file entry contributes
`path.join(dir, entry.name)`; a directory entry, when `recursive`,
contributes `listFiles(relEntryPath, true).map(f => path.join(entry.name, f))`
where `relEntryPath = path.relative(root, path.join(root, dir, name))`. -/
def listFilesEnt : Ent → List String → Bool → List (List String)
  | .file _, _, _ => []
  | .dir es, dirp, rec => listFilesEntries es dirp rec
where
  listFilesEntries : List (String × Ent) → List String → Bool → List (List String)
  | [], _, _ => []
  | (name, e) :: rest, dirp, rec =>
    (match e with
     | .dir _ =>
       if rec then (listFilesEnt e (dirp ++ [name]) true).map (fun f => name :: f)
       else []
     | .file _ => [dirp ++ [name]])
    ++ listFilesEntries rest dirp rec

/-- `listFiles(dir, recursive)`: `fs.readdir(this.fullPath(dir))` throws
when the directory is absent (`none`); results rejoined to strings. -/
def listFiles (root : String) (t : Ent) (dir : String) (rec : Bool) :
    Option (List String) :=
  match resolve t (toSegs (fullPath root dir)) with
  | some (.dir es) => some ((listFilesEnt (.dir es) (toSegs dir) rec).map segsToStr)
  | _ => none

/-- The path of the expiry sidecar: `this.fullPath(relPath) + '.meta.json'`
appends to the final segment. -/
def metaSegs : List String → List String
  | [] => []
  | [x] => [x ++ ".meta.json"]
  | x :: y :: rest => x :: metaSegs (y :: rest)

/-- `JSON.stringify({ expiresAt })`. -/
def encodeMeta (expiresAt : Nat) : String :=
  "\x7b\"expiresAt\":" ++ toString expiresAt ++ "\x7d"

/-- Decimal digits to a number (`none` on a non-digit), accumulator form. -/
def digitsToNatAux : List Char → Nat → Option Nat
  | [], acc => some acc
  | c :: cs, acc =>
    if '0' ≤ c ∧ c ≤ '9' then digitsToNatAux cs (acc * 10 + (c.toNat - '0'.toNat))
    else none

/-- Parse a non-empty all-digit character list as a decimal number. -/
def digitsToNat : List Char → Option Nat
  | [] => none
  | l => digitsToNatAux l 0

/-- Strip an expected leading character sequence, or fail. -/
def stripPrefixChars : List Char → List Char → Option (List Char)
  | [], l => some l
  | _ :: _, [] => none
  | p :: ps, c :: cs => if p = c then stripPrefixChars ps cs else none

/-- `JSON.parse(metaRaw)` followed by reading `.expiresAt`: succeeds
exactly on the strings `encodeMeta` produces (anything else is a parse
error or a record without the field, both of which the sweep skips). -/
def parseMeta (s : String) : Option Nat :=
  match stripPrefixChars "\x7b\"expiresAt\":".data s.data with
  | some rest =>
    match rest.reverse with
    | b :: digitsRev =>
      if b = '\x7d' then digitsToNat digitsRev.reverse else none
    | [] => none
  | none => none

/-- `putTimed`: `this.put(...)` then, when the computed expiry is truthy
(`if (expiresAt)`), write the `.meta.json` sidecar. -/
def putTimed (root : String) (t : Ent) (now : Nat) (rel content : String)
    (o : TimedOpts) : Option Ent :=
  (put root t rel content).bind fun t1 =>
    match computedExpiry now o with
    | some e => if e ≠ 0 then
        writeFile t1 (metaSegs (toSegs (fullPath root rel))) (encodeMeta e)
      else some t1
    | none => some t1

/-- The loop of `deleteExpiredFiles` over the pre-computed file list: for
each file, read and parse its sidecar; when `meta.expiresAt` is truthy
and `Date.now() > meta.expiresAt`, delete the file, unlink the sidecar
and count it; any error in the `try` (no sidecar, parse failure, failed
delete) skips the file. -/
def sweep (root : String) (now : Nat) : List String → Ent → Nat × Ent
  | [], t => (0, t)
  | f :: rest, t =>
    match (readFile t (metaSegs (toSegs (fullPath root f)))).bind parseMeta with
    | some e =>
      if e ≠ 0 ∧ now > e then
        match unlink t (toSegs (fullPath root f)) with
        | some t1 =>
          match unlink t1 (metaSegs (toSegs (fullPath root f))) with
          | some t2 => let (n, t') := sweep root now rest t2; (n + 1, t')
          | none => sweep root now rest t1
        | none => sweep root now rest t
      else sweep root now rest t
    | none => sweep root now rest t

/-- `deleteExpiredFiles()`: `this.listFiles('', true)` then the sweep
loop; returns the number of deleted files. -/
def deleteExpiredFiles (root : String) (t : Ent) (now : Nat) :
    Option (Nat × Ent) :=
  (listFiles root t "" true).map fun files => sweep root now files t

/-- One record of the static `tempLinks` table:
`{ path, expiresAt, ip?, deviceId? }`. -/
structure TempLinkEntry where
  path : String
  expiresAt : Nat
  ip : Option String := none
  deviceId : Option String := none
deriving Repr, DecidableEq

/-- The connection info `validateTempToken` reads off the inbound
`IncomingMessage`: `req.socket.remoteAddress` and
`req.headers['x-device-id']` (either may be undefined). -/
structure ReqInfo where
  remoteAddress : Option String := none
  deviceIdHeader : Option String := none
deriving Repr, DecidableEq

/-- `getTemporaryUrl(relPath, expiresIn = 3600, options?)`: records
`{ path, expiresAt: Date.now() + expiresIn * 1000, ...options }` under a
fresh random token and returns the embedding URL.  The
`crypto.randomBytes` token is passed in as `token`. -/
def getTemporaryUrl (links : List (String × TempLinkEntry)) (now : Nat)
    (token : String) (basePublicUrl : String) (rel : String)
    (expiresIn : Nat := 3600) (ip deviceId : Option String := none) :
    String × List (String × TempLinkEntry) :=
  (basePublicUrl ++ "/temp?token=" ++ token,
   setA links token
     { path := rel, expiresAt := now + expiresIn * 1000, ip := ip, deviceId := deviceId })

/-- `validateTempToken(token, req?)`: unknown token → `null`; expired
token → evicted and `null`; a truthy recorded `ip` with a present `req`
whose `remoteAddress` differs → `null`; likewise for `deviceId` against
the `x-device-id` header; otherwise the stored path.  Returns the result
together with the (possibly evicted-from) table. -/
def validateTempToken (links : List (String × TempLinkEntry)) (now : Nat)
    (token : String) (req : Option ReqInfo) :
    Option String × List (String × TempLinkEntry) :=
  match lookupA links token with
  | none => (none, links)
  | some e =>
    if now > e.expiresAt then (none, removeA links token)
    else if truthyStr e.ip &&
        (match req with
         | some r => decide (r.remoteAddress ≠ e.ip)
         | none => false) then (none, links)
    else if truthyStr e.deviceId &&
        (match req with
         | some r => decide (r.deviceIdHeader ≠ e.deviceId)
         | none => false) then (none, links)
    else (some e.path, links)

end LocalStorageDriver

/-! ## The `StorageDriver` capability contract (`lib/file-storage.interface.ts`)

A wrapped driver is a record of operations over an opaque backend state
`σ`.  Required methods are total fields; optional methods
(`url?`, `getMetadata?`, `makeDirectory?`, `deleteDirectory?`,
`setVisibility?`, `getVisibility?`, and the duck-typed
`getTemporaryUrl`) are `Option`-valued, mirroring the
presence/absence-of-a-function-property idiom of the source.  Each call
returns the settled `Promise` (`Except` of the `Error` message) together
with the backend state after the call.  The `options.visibility`
argument of `put`, irrelevant to every claim, is omitted. -/

/-- `FileMetadata` value object. -/
structure FileMetadata where
  path : String
  size : Nat
  mimeType : Option String := none
  lastModified : Option Nat := none
  visibility : Option String := none
deriving Repr, DecidableEq

structure DriverOps (σ : Type) where
  put : String → String → σ → Except String Unit × σ
  get : String → σ → Except String String × σ
  delete : String → σ → Except String Unit × σ
  fileExists : String → σ → Except String Bool × σ
  copy : String → String → σ → Except String Unit × σ
  move : String → String → σ → Except String Unit × σ
  createReadStream : String → σ → Except String String × σ
  prepend : String → String → σ → Except String Unit × σ
  append : String → String → σ → Except String Unit × σ
  listFiles : String → Bool → σ → Except String (List String) × σ
  listDirectories : String → Bool → σ → Except String (List String) × σ
  url : Option (String → σ → Except String String × σ) := none
  getMetadata : Option (String → σ → Except String FileMetadata × σ) := none
  makeDirectory : Option (String → σ → Except String Unit × σ) := none
  deleteDirectory : Option (String → σ → Except String Unit × σ) := none
  setVisibility : Option (String → String → σ → Except String Unit × σ) := none
  getVisibility : Option (String → σ → Except String (Option String) × σ) := none
  getTemporaryUrl : Option (String → Nat → Option String → Option String → σ →
    Except String String × σ) := none

/-- A driver whose backend state is `Unit`, every required operation
succeeding vacuously and every optional operation absent; used to
instantiate the wrapper theorems at a concrete wrapped driver. -/
def trivialDriver : DriverOps Unit where
  put := fun _ _ s => (.ok (), s)
  get := fun _ s => (.ok "", s)
  delete := fun _ s => (.ok (), s)
  fileExists := fun _ s => (.ok false, s)
  copy := fun _ _ s => (.ok (), s)
  move := fun _ _ s => (.ok (), s)
  createReadStream := fun _ s => (.ok "", s)
  prepend := fun _ _ s => (.ok (), s)
  append := fun _ _ s => (.ok (), s)
  listFiles := fun _ _ s => (.ok [], s)
  listDirectories := fun _ _ s => (.ok [], s)

/-! ## `src/drivers/scoped.driver.ts` — `ScopedStorageDriver` -/

namespace ScopedStorageDriver

/-- `scoped(path)`: `this.prefix ? prefix.replace(/\/+$/, '') + '/' + path.replace(/^\/+/, '') : path`. -/
def scopedPath (pfx p : String) : String :=
  if pfx ≠ "" then stripTrailingSlashes pfx ++ "/" ++ stripLeadingSlashes p else p

variable {σ : Type}

/-- `put`: delegates to the wrapped driver at the prefixed path. -/
def put (d : DriverOps σ) (pfx p c : String) (s : σ) : Except String Unit × σ :=
  d.put (scopedPath pfx p) c s

/-- `get`: delegates to the wrapped driver at the prefixed path. -/
def get (d : DriverOps σ) (pfx p : String) (s : σ) : Except String String × σ :=
  d.get (scopedPath pfx p) s

/-- `makeDirectory`: `driver.makeDirectory?.(scoped) ?? Promise.resolve()`. -/
def makeDirectory (d : DriverOps σ) (pfx p : String) (s : σ) :
    Except String Unit × σ :=
  match d.makeDirectory with
  | some f => f (scopedPath pfx p) s
  | none => (.ok (), s)

/-- `deleteDirectory`: `driver.deleteDirectory?.(scoped) ?? Promise.resolve()`. -/
def deleteDirectory (d : DriverOps σ) (pfx p : String) (s : σ) :
    Except String Unit × σ :=
  match d.deleteDirectory with
  | some f => f (scopedPath pfx p) s
  | none => (.ok (), s)

/-- `setVisibility`: `driver.setVisibility?.(scoped, v) ?? Promise.resolve()`. -/
def setVisibility (d : DriverOps σ) (pfx p v : String) (s : σ) :
    Except String Unit × σ :=
  match d.setVisibility with
  | some f => f (scopedPath pfx p) v s
  | none => (.ok (), s)

/-- `getMetadata`: `driver.getMetadata?.(scoped) ?? Promise.resolve(undefined)`;
the resolved `undefined` is `none`. -/
def getMetadata (d : DriverOps σ) (pfx p : String) (s : σ) :
    Except String (Option FileMetadata) × σ :=
  match d.getMetadata with
  | some f => let (r, s') := f (scopedPath pfx p) s; (r.map some, s')
  | none => (.ok none, s)

/-- `url`: `driver.url?.(scoped) ?? Promise.resolve(undefined)`. -/
def url (d : DriverOps σ) (pfx p : String) (s : σ) :
    Except String (Option String) × σ :=
  match d.url with
  | some f => let (r, s') := f (scopedPath pfx p) s; (r.map some, s')
  | none => (.ok none, s)

/-- `getVisibility`: `driver.getVisibility?.(scoped) ?? Promise.resolve(undefined)`. -/
def getVisibility (d : DriverOps σ) (pfx p : String) (s : σ) :
    Except String (Option String) × σ :=
  match d.getVisibility with
  | some f => f (scopedPath pfx p) s
  | none => (.ok none, s)

end ScopedStorageDriver

/-! ## `ReadOnlyStorageDriver` (in `src/drivers/local.driver.ts`)

Every mutating method's body is
`return Promise.reject(this.throwReadOnly())` — `throwReadOnly` throws
synchronously, so the call raises before any delegation; either way the
caller observes a rejection carrying the read-only message and the
wrapped driver is never invoked. -/

namespace ReadOnlyStorageDriver

/-- The message of `throwReadOnly()`. -/
def readOnlyMsg : String :=
  "This disk is read-only. Write operations are not allowed."

variable {σ : Type}

/-- `put()`: always rejects read-only; the wrapped state is untouched. -/
def put (_d : DriverOps σ) (s : σ) : Except String Unit × σ :=
  (.error readOnlyMsg, s)

/-- `delete()`: always rejects read-only. -/
def delete (_d : DriverOps σ) (s : σ) : Except String Unit × σ :=
  (.error readOnlyMsg, s)

/-- `copy()`: always rejects read-only. -/
def copy (_d : DriverOps σ) (s : σ) : Except String Unit × σ :=
  (.error readOnlyMsg, s)

/-- `move()`: always rejects read-only. -/
def move (_d : DriverOps σ) (s : σ) : Except String Unit × σ :=
  (.error readOnlyMsg, s)

/-- `append()`: always rejects read-only. -/
def append (_d : DriverOps σ) (s : σ) : Except String Unit × σ :=
  (.error readOnlyMsg, s)

/-- `prepend()`: always rejects read-only. -/
def prepend (_d : DriverOps σ) (s : σ) : Except String Unit × σ :=
  (.error readOnlyMsg, s)

/-- `makeDirectory()`: always rejects read-only. -/
def makeDirectory (_d : DriverOps σ) (s : σ) : Except String Unit × σ :=
  (.error readOnlyMsg, s)

/-- `deleteDirectory()`: always rejects read-only. -/
def deleteDirectory (_d : DriverOps σ) (s : σ) : Except String Unit × σ :=
  (.error readOnlyMsg, s)

/-- `setVisibility()`: always rejects read-only. -/
def setVisibility (_d : DriverOps σ) (s : σ) : Except String Unit × σ :=
  (.error readOnlyMsg, s)

/-- `get(path)`: `this.driver.get(path)`. -/
def get (d : DriverOps σ) (p : String) (s : σ) : Except String String × σ :=
  d.get p s

/-- `exists(path)`: `this.driver.exists(path)`. -/
def fileExists (d : DriverOps σ) (p : String) (s : σ) : Except String Bool × σ :=
  d.fileExists p s

/-- `listFiles(dir, recursive)`: `this.driver.listFiles(dir, recursive)`. -/
def listFiles (d : DriverOps σ) (dir : String) (rec : Bool) (s : σ) :
    Except String (List String) × σ :=
  d.listFiles dir rec s

/-- `listDirectories(dir, recursive)`: delegation. -/
def listDirectories (d : DriverOps σ) (dir : String) (rec : Bool) (s : σ) :
    Except String (List String) × σ :=
  d.listDirectories dir rec s

/-- `createReadStream(path)`: `this.driver.createReadStream(path)`. -/
def createReadStream (d : DriverOps σ) (p : String) (s : σ) :
    Except String String × σ :=
  d.createReadStream p s

/-- `getMetadata`: `driver.getMetadata?.(path) ?? Promise.resolve(undefined)`. -/
def getMetadata (d : DriverOps σ) (p : String) (s : σ) :
    Except String (Option FileMetadata) × σ :=
  match d.getMetadata with
  | some f => let (r, s') := f p s; (r.map some, s')
  | none => (.ok none, s)

/-- `url`: `driver.url?.(path) ?? Promise.resolve(undefined)`. -/
def url (d : DriverOps σ) (p : String) (s : σ) :
    Except String (Option String) × σ :=
  match d.url with
  | some f => let (r, s') := f p s; (r.map some, s')
  | none => (.ok none, s)

/-- `getVisibility`: `driver.getVisibility?.(path) ?? Promise.resolve(undefined)`. -/
def getVisibility (d : DriverOps σ) (p : String) (s : σ) :
    Except String (Option String) × σ :=
  match d.getVisibility with
  | some f => f p s
  | none => (.ok none, s)

end ReadOnlyStorageDriver

/-! ## `src/drivers/s3.driver.ts` — `S3StorageDriver`

The AWS SDK is the external boundary: a bucket is a flat key → content
map, `HeadObjectCommand` is summarised by its outcome, and the
presigner `getSignedUrl` is an abstract URL constructor. -/

namespace S3StorageDriver

/-- Outcome of `this.s3Client.send(new HeadObjectCommand(...))`:
success, a not-found rejection, or a transport/authentication
rejection. -/
inductive HeadOutcome
  | found
  | notFound
  | transportFailure
deriving Repr, DecidableEq

/-- `exists(path)` (Lean keyword, hence `fileExists`): `try { send(HeadObject); return true } catch { return false }` —
the catch-all converts every rejection, not-found and transport alike,
into `false`; the promise never rejects. -/
def fileExists (o : HeadOutcome) : Except String Bool :=
  match o with
  | .found => .ok true
  | .notFound => .ok false
  | .transportFailure => .ok false

/-- `ListObjectsV2Command` over the bucket with a `Prefix`: the full
object keys whose key starts with the prefix. -/
def listObjectsV2 (bucket : List (String × String)) (pfx : String) : List String :=
  (bucket.filter (fun kv => strStartsWith kv.1 pfx)).map (fun kv => kv.1)

/-- `listFiles(prefix?)`: returns `ListObjectsV2`'s keys unchanged.  The
source method takes no `recursive` parameter, so a caller invoking the
`StorageDriver` contract's `listFiles(dir, recursive)` has the flag
silently dropped; `rec` reproduces that call shape. -/
def listFiles (bucket : List (String × String)) (pfx : String) (_rec : Bool) :
    List String :=
  listObjectsV2 bucket pfx

/-- The rejection message for constrained S3 temporary URLs. -/
def tempUrlErrMsg : String :=
  "IP/device restriction is not supported for S3 temporary URLs"

/-- One call to the AWS presigner `getSignedUrl(client, GetObject(bucket, key), {expiresIn})`. -/
structure SignCall where
  bucket : String
  key : String
  expiresIn : Nat
deriving Repr, DecidableEq

/-- The URL the presigner returns (external SDK, abstract constructor). -/
def presignedUrl (bucket key : String) (expiresIn : Nat) : String :=
  "https://" ++ bucket ++ ".s3/" ++ key ++ "?X-Amz-Expires=" ++ toString expiresIn

/-- `getTemporaryUrl(path, expiresIn = 3600, options?)`: throws when
`options?.ip || options?.deviceId` is truthy, otherwise presigns a
`GetObjectCommand`.  The second component records the presigner calls
made, so "fails before any signing attempt" is observable. -/
def getTemporaryUrl (bucket p : String) (expiresIn : Nat := 3600)
    (ip deviceId : Option String := none) :
    Except String String × List SignCall :=
  if truthyStr ip || truthyStr deviceId then (.error tempUrlErrMsg, [])
  else (.ok (presignedUrl bucket p expiresIn), [⟨bucket, p, expiresIn⟩])

end S3StorageDriver

/-! ## `src/drivers/ftp.driver.ts` — `FTPStorageDriver`

The remote server is a flat path → content map (`basic-ftp` sessions,
`ensureDir`/`cd` plumbing and streams are the transport boundary); the
`.ftp-expirations.json` index, kept by `putTimed`/`deleteExpiredFiles`
as a JSON object mapping path → expiry, is carried alongside it. -/

namespace FTPStorageDriver

/-- `normalizeRemotePath`: `path.posix.normalize(relPath).replace(/^\/+/, '')`
(normalize is the identity on the clean paths in scope). -/
def normalizeRemotePath (s : String) : String := stripLeadingSlashes s

/-- The remote file table plus the parsed expiration index. -/
structure FtpState where
  remote : List (String × String)
  index : List (String × Nat)
deriving Repr, DecidableEq

/-- `put`: uploads to the normalized remote path, overwriting. -/
def put (st : FtpState) (rel content : String) : FtpState :=
  { st with remote := setA st.remote (normalizeRemotePath rel) content }

/-- `delete`: `client.remove(normalizeRemotePath(relPath))`, which
rejects when the file is absent. -/
def delete (st : FtpState) (rel : String) : Option FtpState :=
  let rp := normalizeRemotePath rel
  match lookupA st.remote rp with
  | some _ => some { st with remote := removeA st.remote rp }
  | none => none

/-- `putTimed`: `this.put(...)`, then when the computed expiry is truthy
(`if (expiresAt)`) read-modify-write the index with
`meta[relPath] = expiresAt` (note: keyed by the raw `relPath`). -/
def putTimed (st : FtpState) (now : Nat) (rel content : String)
    (o : TimedOpts) : FtpState :=
  let st1 := put st rel content
  match computedExpiry now o with
  | some e =>
    if e ≠ 0 then { st1 with index := setA st1.index rel e } else st1
  | none => st1

/-- The loop of `deleteExpiredFiles` over `Object.entries(meta)` (a
snapshot of the index as read): for each `[file, expiresAt]`, when
`now > expiresAt`, try `this.delete(file)`; on success count it and
`delete meta[file]`; a failed delete is swallowed and the record kept;
entries not yet expired are kept.  The final index is what the sweep
writes back. -/
def sweepIndex (now : Nat) : List (String × Nat) → FtpState → Nat × FtpState
  | [], st => (0, st)
  | (f, e) :: rest, st =>
    if now > e then
      match delete st f with
      | some st1 =>
        let st2 := { st1 with index := removeA st1.index f }
        let (n, st') := sweepIndex now rest st2
        (n + 1, st')
      | none => sweepIndex now rest st
    else sweepIndex now rest st

/-- `deleteExpiredFiles()`: sweep every recorded expiry, returning the
number of deleted files alongside the final state. -/
def deleteExpiredFiles (st : FtpState) (now : Nat) : Nat × FtpState :=
  sweepIndex now st.index st

/-- The paths of the index entries the sweep regards as expired:
those with `now > expiresAt` (strictly past, not at, the instant). -/
def expiredKeys (now : Nat) (l : List (String × Nat)) : List String :=
  (l.filter (fun fe => decide (now > fe.2))).map Prod.fst

end FTPStorageDriver

/-! ## `src/drivers/sftp.driver.ts` — `SFTPStorageDriver` -/

namespace SFTPStorageDriver

/-- Outcome of `withClient`'s connect/authenticate phase. -/
inductive ConnOutcome
  | connected
  | connectFailure (msg : String)
deriving Repr, DecidableEq

/-- Outcome of `client.stat(relPath)` once connected. -/
inductive StatOutcome
  | found
  | notFound
  | transportFailure
deriving Repr, DecidableEq

/-- `exists(relPath)` (Lean keyword, hence `fileExists`): connection
failures propagate out of `withClient`, but the inner
`try { stat; return true } catch { return false }` converts every stat
rejection — not-found and transport alike — into `false`. -/
def fileExists (conn : ConnOutcome) (st : StatOutcome) : Except String Bool :=
  match conn with
  | .connectFailure m => .error m
  | .connected =>
    match st with
    | .found => .ok true
    | .notFound => .ok false
    | .transportFailure => .ok false

/-- `deleteExpiredFiles()` of the SFTP driver: token-for-token the FTP
sweep, reading `.sftp-expirations.json` instead of
`.ftp-expirations.json`; the index filename does not appear in the
state model, so the function coincides with the FTP one. -/
def deleteExpiredFiles (st : FTPStorageDriver.FtpState) (now : Nat) :
    Nat × FTPStorageDriver.FtpState :=
  FTPStorageDriver.sweepIndex now st.index st

end SFTPStorageDriver

/-! ## `src/lib/file-storage.service.ts` — `FileStorageService` -/

namespace FileStorageService

/-- A disk's configuration, keyed by its `driver` discriminant.
Credential/endpoint fields play no role in any claim and are omitted;
`scopedC` carries the `prefix` plus `wrappedRef`, standing for any
wrapped-driver reference a configuration might carry through the
`[key: string]: any` index signature of `StorageDiskConfig` (the
constructor never reads such a field).  `unknownC` is any other
`driver` string. -/
inductive DiskConfig
  | localC (root : String)
  | bufferC
  | s3C
  | ftpC
  | sftpC
  | dropboxC
  | gdriveC
  | scopedC (pfx : String) (wrappedRef : Option String)
  | unknownC (driverName : String)
deriving Repr, DecidableEq

/-- The driver instance the constructor builds for a disk. -/
inductive BuiltDriver
  | localDrv (root : String)
  | bufferDrv
  | s3Drv
  | ftpDrv
  | sftpDrv
  | dropboxDrv
  | gdriveDrv
  | scopedDrv (pfx : String) (wrapped : BuiltDriver)
deriving Repr, DecidableEq

/-- The constructor's `switch (diskConfig.driver)`: each tag constructs
its driver; `'scoped'` constructs
`new ScopedStorageDriver(diskConfig, new LocalStorageDriver({driver: 'local', root: ''}))`;
an unknown tag throws `Unknown driver: ...`. -/
def buildDriver : DiskConfig → Except String BuiltDriver
  | .localC root => .ok (.localDrv root)
  | .bufferC => .ok .bufferDrv
  | .s3C => .ok .s3Drv
  | .ftpC => .ok .ftpDrv
  | .sftpC => .ok .sftpDrv
  | .dropboxC => .ok .dropboxDrv
  | .gdriveC => .ok .gdriveDrv
  | .scopedC pfx _ => .ok (.scopedDrv pfx (.localDrv ""))
  | .unknownC driverName => .error ("Unknown driver: " ++ driverName)

/-- `getTemporaryUrl(path, expiresIn, options, disk?)`: duck-types the
resolved driver — delegates when `typeof driver.getTemporaryUrl === 'function'`,
otherwise throws the explicit unsupported error. -/
def getTemporaryUrl {σ : Type} (d : DriverOps σ) (p : String)
    (expiresIn : Nat) (ip deviceId : Option String) (s : σ) :
    Except String String × σ :=
  match d.getTemporaryUrl with
  | some f => f p expiresIn ip deviceId s
  | none => (.error "Temporary URL is not supported for this disk", s)

end FileStorageService

/-! ## Helper lemmas -/

/-- Looking up the key just set finds the new value. -/
theorem lookupA_setA {α : Type} (l : List (String × α)) (k : String) (v : α) :
    lookupA (setA l k v) k = some v := by
  induction l with
  | nil => simp [setA, lookupA]
  | cons hd tl ih =>
    by_cases h : hd.1 = k
    · simp [setA, h, lookupA]
    · simp [setA, h, lookupA, ih]

/-- Removing a different key does not change a lookup. -/
theorem lookupA_removeA_ne {α : Type} (l : List (String × α)) (k key : String)
    (h : k ≠ key) : lookupA (removeA l key) k = lookupA l k := by
  induction l with
  | nil => rfl
  | cons hd tl ih =>
    obtain ⟨a, b⟩ := hd
    simp only [removeA, List.filter_cons] at ih ⊢
    simp only [decide_not] at ih
    by_cases hk : a = key
    · have hkey : key ≠ k := fun e => h e.symm
      simp [hk, lookupA, hkey, ih]
    · by_cases hke : a = k <;> simp [hk, hke, lookupA, ih, h]

/-- Reading back a path just written yields the written content. -/
theorem readFile_writeFile (p : List String) :
    ∀ (t t' : Ent) (c : String), writeFile t p c = some t' →
      readFile t' p = some c := by
  induction p with
  | nil => intro t t' c h; simp [writeFile] at h
  | cons x rest ih =>
    intro t t' c h
    cases t with
    | file _ => simp [writeFile] at h
    | dir es =>
      cases rest with
      | nil =>
        simp only [writeFile] at h
        rcases hx : lookupA es x with _ | e
        · rw [hx] at h
          simp at h
          subst h
          simp [readFile, lookupA_setA]
        · rw [hx] at h
          cases e with
          | file _ =>
            simp at h
            subst h
            simp [readFile, lookupA_setA]
          | dir _ => simp at h
      | cons y rest' =>
        simp only [writeFile] at h
        rcases hx : lookupA es x with _ | e
        · rw [hx] at h
          simp only [Option.map_eq_some'] at h
          obtain ⟨e', hw, ht⟩ := h
          subst ht
          simp [readFile, lookupA_setA]
          exact ih _ _ _ hw
        · rw [hx] at h
          simp only [Option.map_eq_some'] at h
          obtain ⟨e', hw, ht⟩ := h
          subst ht
          simp [readFile, lookupA_setA]
          exact ih _ _ _ hw

/-! ## Claim theorems -/

/-- C10: for a disk configured with driver `'scoped'`, the service
constructor always builds a `ScopedStorageDriver` wrapping a freshly
constructed `LocalStorageDriver` with root `''`, whatever wrapped-driver
reference the configuration may carry. -/
theorem claim10_scoped_disk_construction (pfx : String) (ref : Option String) :
    FileStorageService.buildDriver (.scopedC pfx ref) =
      .ok (.scopedDrv pfx (.localDrv "")) := rfl

/-- C4: the ReadOnly wrapper rejects every mutating call with the
read-only violation, leaving the wrapped driver's state untouched, and
delegates every read call to the wrapped driver unchanged. -/
theorem claim4_readonly_wrapper {σ : Type} (d : DriverOps σ) (s : σ)
    (p dir : String) (rec : Bool) :
    ReadOnlyStorageDriver.put d s = (.error ReadOnlyStorageDriver.readOnlyMsg, s) ∧
    ReadOnlyStorageDriver.delete d s = (.error ReadOnlyStorageDriver.readOnlyMsg, s) ∧
    ReadOnlyStorageDriver.copy d s = (.error ReadOnlyStorageDriver.readOnlyMsg, s) ∧
    ReadOnlyStorageDriver.move d s = (.error ReadOnlyStorageDriver.readOnlyMsg, s) ∧
    ReadOnlyStorageDriver.append d s = (.error ReadOnlyStorageDriver.readOnlyMsg, s) ∧
    ReadOnlyStorageDriver.prepend d s = (.error ReadOnlyStorageDriver.readOnlyMsg, s) ∧
    ReadOnlyStorageDriver.makeDirectory d s = (.error ReadOnlyStorageDriver.readOnlyMsg, s) ∧
    ReadOnlyStorageDriver.deleteDirectory d s = (.error ReadOnlyStorageDriver.readOnlyMsg, s) ∧
    ReadOnlyStorageDriver.setVisibility d s = (.error ReadOnlyStorageDriver.readOnlyMsg, s) ∧
    ReadOnlyStorageDriver.get d p s = d.get p s ∧
    ReadOnlyStorageDriver.fileExists d p s = d.fileExists p s ∧
    ReadOnlyStorageDriver.listFiles d dir rec s = d.listFiles dir rec s ∧
    ReadOnlyStorageDriver.createReadStream d p s = d.createReadStream p s :=
  ⟨rfl, rfl, rfl, rfl, rfl, rfl, rfl, rfl, rfl, rfl, rfl, rfl, rfl⟩

/-- C1: evaluation of the code at the claim's input.  `{ttl: 0}` is
falsy in `options.ttl ? Date.now() + options.ttl * 1000 : undefined`, so
`putTimed(p, c, {ttl: 0})` stores the file but records no expiry
(no `.meta.json` sidecar, no FTP index entry), and `deleteExpiredFiles()`
— even arbitrarily much later — returns a count of 0 and leaves `p` in
place, where the claim requires immediate deletion and a count of 1.
The `{ttl: 3600}` half of the claim does hold: the sidecar records
`1000 + 3600·1000` and an immediate sweep deletes nothing. -/
theorem claim1_putTimed_ttl_zero_never_swept :
    LocalStorageDriver.putTimed "" (.dir []) 1000 "a.txt" "hi" ⟨none, some 0⟩ =
      some (.dir [("a.txt", .file "hi")]) ∧
    LocalStorageDriver.deleteExpiredFiles "" (.dir [("a.txt", .file "hi")]) 99999 =
      some (0, .dir [("a.txt", .file "hi")]) ∧
    LocalStorageDriver.fileExists "" (.dir [("a.txt", .file "hi")]) "a.txt" = true ∧
    FTPStorageDriver.putTimed ⟨[], []⟩ 1000 "a.txt" "hi" ⟨none, some 0⟩ =
      ⟨[("a.txt", "hi")], []⟩ ∧
    FTPStorageDriver.deleteExpiredFiles ⟨[("a.txt", "hi")], []⟩ 99999 =
      (0, ⟨[("a.txt", "hi")], []⟩) ∧
    LocalStorageDriver.putTimed "" (.dir []) 1000 "a.txt" "hi" ⟨none, some 3600⟩ =
      some (.dir [("a.txt", .file "hi"),
        ("a.txt.meta.json", .file "\x7b\"expiresAt\":3601000\x7d")]) ∧
    LocalStorageDriver.deleteExpiredFiles ""
      (.dir [("a.txt", .file "hi"),
        ("a.txt.meta.json", .file "\x7b\"expiresAt\":3601000\x7d")]) 1000 =
      some (0, .dir [("a.txt", .file "hi"),
        ("a.txt.meta.json", .file "\x7b\"expiresAt\":3601000\x7d")]) :=
  ⟨rfl, rfl, rfl, rfl, rfl, rfl, rfl⟩

/-- C2 counterexample: a transport/authentication failure during the
existence probe is converted into `false` instead of propagating — the
S3 `HeadObject` catch-all and the SFTP `stat` catch both swallow it. -/
theorem claim2_counterexample :
    S3StorageDriver.fileExists .transportFailure = .ok false ∧
    SFTPStorageDriver.fileExists .connected .transportFailure = .ok false :=
  ⟨rfl, rfl⟩

/-- C2 amended: `exists(path)` resolves `false` rather than raising when
the path is absent, but the probe's catch-all also converts
transport/authentication failures into `false`; only failures raised
while establishing the session (SFTP connect/auth inside `withClient`)
still propagate. -/
theorem claim2_exists_amended :
    (∀ o : S3StorageDriver.HeadOutcome,
      S3StorageDriver.fileExists o = .ok (decide (o = .found))) ∧
    (∀ st : SFTPStorageDriver.StatOutcome,
      SFTPStorageDriver.fileExists .connected st = .ok (decide (st = .found))) ∧
    (∀ (m : String) (st : SFTPStorageDriver.StatOutcome),
      SFTPStorageDriver.fileExists (.connectFailure m) st = .error m) := by
  refine ⟨fun o => ?_, fun st => ?_, fun m st => rfl⟩
  · cases o <;> rfl
  · cases st <;> rfl

/-- C6: S3 `getTemporaryUrl` rejects before any presigner call whenever
a truthy IP or device constraint is supplied (the recorded presigner
call list stays empty), and otherwise delegates to the provider's
native signing with the given expiry; in particular the spec's
`getTemporaryUrl(p, 900, {ip: "1.2.3.4"})` example rejects unsigned. -/
theorem claim6_s3_temp_url_constraints :
    (∀ (bucket p : String) (expiresIn : Nat) (ip dev : Option String),
      S3StorageDriver.getTemporaryUrl bucket p expiresIn ip dev =
        if truthyStr ip || truthyStr dev then (.error S3StorageDriver.tempUrlErrMsg, [])
        else (.ok (S3StorageDriver.presignedUrl bucket p expiresIn),
          [⟨bucket, p, expiresIn⟩])) ∧
    S3StorageDriver.getTemporaryUrl "b" "p" 900 (some "1.2.3.4") none =
      (.error S3StorageDriver.tempUrlErrMsg, []) :=
  ⟨fun _ _ _ _ _ => rfl, rfl⟩

/-- C3 counterexample: `makeDirectory` on a Scoped wrapper whose wrapped
driver lacks the operation resolves successfully as a silent no-op
(`?? Promise.resolve()`), and `url` on a ReadOnly wrapper whose wrapped
driver lacks it resolves `undefined` — neither raises an "unsupported"
error as the claim requires. -/
theorem claim3_counterexample :
    ScopedStorageDriver.makeDirectory trivialDriver "x" "d" () = (.ok (), ()) ∧
    ReadOnlyStorageDriver.url trivialDriver "p" () = (.ok none, ()) :=
  ⟨rfl, rfl⟩

/-- C3 amended: only `FileStorageService.getTemporaryUrl` raises an
explicit "not supported" error when the selected driver lacks the
operation; the Scoped wrapper resolves a missing
`makeDirectory`/`deleteDirectory`/`setVisibility` as a silent no-op and
a missing `getMetadata`/`url`/`getVisibility` as `undefined`, and the
ReadOnly wrapper resolves a missing `getMetadata`/`url`/`getVisibility`
as `undefined`, never raising. -/
theorem claim3_optional_ops_amended {σ : Type} (d : DriverOps σ) (s : σ)
    (p v dir pfx : String) (expiresIn : Nat) (ip dev : Option String)
    (h1 : d.getTemporaryUrl = none) (h2 : d.makeDirectory = none)
    (h3 : d.deleteDirectory = none) (h4 : d.setVisibility = none)
    (h5 : d.getMetadata = none) (h6 : d.url = none)
    (h7 : d.getVisibility = none) :
    FileStorageService.getTemporaryUrl d p expiresIn ip dev s =
      (.error "Temporary URL is not supported for this disk", s) ∧
    ScopedStorageDriver.makeDirectory d pfx dir s = (.ok (), s) ∧
    ScopedStorageDriver.deleteDirectory d pfx dir s = (.ok (), s) ∧
    ScopedStorageDriver.setVisibility d pfx p v s = (.ok (), s) ∧
    ScopedStorageDriver.getMetadata d pfx p s = (.ok none, s) ∧
    ScopedStorageDriver.url d pfx p s = (.ok none, s) ∧
    ScopedStorageDriver.getVisibility d pfx p s = (.ok none, s) ∧
    ReadOnlyStorageDriver.getMetadata d p s = (.ok none, s) ∧
    ReadOnlyStorageDriver.url d p s = (.ok none, s) ∧
    ReadOnlyStorageDriver.getVisibility d p s = (.ok none, s) := by
  refine ⟨?_, ?_, ?_, ?_, ?_, ?_, ?_, ?_, ?_, ?_⟩
  · simp [FileStorageService.getTemporaryUrl, h1]
  · simp [ScopedStorageDriver.makeDirectory, h2]
  · simp [ScopedStorageDriver.deleteDirectory, h3]
  · simp [ScopedStorageDriver.setVisibility, h4]
  · simp [ScopedStorageDriver.getMetadata, h5]
  · simp [ScopedStorageDriver.url, h6]
  · simp [ScopedStorageDriver.getVisibility, h7]
  · simp [ReadOnlyStorageDriver.getMetadata, h5]
  · simp [ReadOnlyStorageDriver.url, h6]
  · simp [ReadOnlyStorageDriver.getVisibility, h7]

/-- C3 witness: the amended behavior at the concrete `trivialDriver`,
which implements none of the optional operations. -/
theorem claim3_optional_ops_amended_witness :
    FileStorageService.getTemporaryUrl trivialDriver "p" 900 none none () =
      (.error "Temporary URL is not supported for this disk", ()) ∧
    ScopedStorageDriver.makeDirectory trivialDriver "pfx" "d" () = (.ok (), ()) ∧
    ScopedStorageDriver.deleteDirectory trivialDriver "pfx" "d" () = (.ok (), ()) ∧
    ScopedStorageDriver.setVisibility trivialDriver "pfx" "p" "public" () = (.ok (), ()) ∧
    ScopedStorageDriver.getMetadata trivialDriver "pfx" "p" () = (.ok none, ()) ∧
    ScopedStorageDriver.url trivialDriver "pfx" "p" () = (.ok none, ()) ∧
    ScopedStorageDriver.getVisibility trivialDriver "pfx" "p" () = (.ok none, ()) ∧
    ReadOnlyStorageDriver.getMetadata trivialDriver "p" () = (.ok none, ()) ∧
    ReadOnlyStorageDriver.url trivialDriver "p" () = (.ok none, ()) ∧
    ReadOnlyStorageDriver.getVisibility trivialDriver "p" () = (.ok none, ()) :=
  claim3_optional_ops_amended trivialDriver () "p" "public" "d" "pfx" 900
    none none rfl rfl rfl rfl rfl rfl rfl

/-- C7: the Scoped wrapper's `put`/`get` delegate to the wrapped driver
at the prefixed path, with `scoped('a.txt') = 'x/a.txt'` for prefix
`'x'`; and on the local driver, writing `x/a.txt` and reading `x/a.txt`
back returns exactly the written content. -/
theorem claim7_scoped_put_get_roundtrip :
    ScopedStorageDriver.scopedPath "x" "a.txt" = "x/a.txt" ∧
    (∀ (σ : Type) (d : DriverOps σ) (pfx p c : String) (s : σ),
      ScopedStorageDriver.put d pfx p c s =
        d.put (ScopedStorageDriver.scopedPath pfx p) c s) ∧
    (∀ (σ : Type) (d : DriverOps σ) (pfx p : String) (s : σ),
      ScopedStorageDriver.get d pfx p s =
        d.get (ScopedStorageDriver.scopedPath pfx p) s) ∧
    (∀ (root : String) (t t' : Ent) (c : String),
      LocalStorageDriver.put root t "x/a.txt" c = some t' →
        LocalStorageDriver.get root t' "x/a.txt" = some c) := by
  refine ⟨rfl, fun _ _ _ _ _ _ => rfl, fun _ _ _ _ _ => rfl, ?_⟩
  intro root t t' c h
  exact readFile_writeFile _ _ _ _ h

/-- C8 counterexample: on a local tree holding only `sub/a.txt`,
`listFiles('sub', false)` returns `['sub/a.txt']` — a path carrying the
`dir` prefix, not the dir-relative `['a.txt']` the claim requires — and
the recursive `listFiles('', true)` even duplicates the intermediate
directory, returning `['sub/sub/a.txt']`. -/
theorem claim8_counterexample :
    LocalStorageDriver.listFiles ""
      (.dir [("sub", .dir [("a.txt", .file "x")])]) "sub" false =
      some ["sub/a.txt"] ∧
    LocalStorageDriver.listFiles ""
      (.dir [("sub", .dir [("a.txt", .file "x")])]) "" true =
      some ["sub/sub/a.txt"] ∧
    (["sub/a.txt"] : List String) ≠ ["a.txt"] :=
  ⟨rfl, rfl, by decide⟩

/-- Auxiliary for C8: the non-recursive body of the local `listFiles`
returns exactly the immediate child files, each as `path.join(dir, name)`. -/
theorem listFilesEntries_nonrecursive (es : List (String × Ent))
    (dirp : List String) :
    LocalStorageDriver.listFilesEnt.listFilesEntries es dirp false =
      (es.filter (fun ne => isFile ne.2)).map (fun ne => dirp ++ [ne.1]) := by
  induction es with
  | nil => rfl
  | cons hd rest ih =>
    obtain ⟨name, e⟩ := hd
    cases e with
    | file c =>
      simp [LocalStorageDriver.listFilesEnt.listFilesEntries, isFile, ih]
    | dir es' =>
      simp [LocalStorageDriver.listFilesEnt.listFilesEntries, isFile, ih]

/-- C8 amended: `listFiles(dir, recursive=false)` on the local driver
returns exactly the immediate child files of `dir`, but as paths
carrying the `dir` prefix (relative to the driver root, not to `dir`);
and the S3 `listFiles` has no `recursive` parameter at all — the flag a
contract caller passes is ignored — and returns the full object keys
under the prefix, not prefix-relative ones. -/
theorem claim8_listFiles_amended :
    (∀ (es : List (String × Ent)) (dirp : List String) (rec : Bool),
      LocalStorageDriver.listFilesEnt (.dir es) dirp rec =
        LocalStorageDriver.listFilesEnt.listFilesEntries es dirp rec) ∧
    (∀ (root dir : String) (t : Ent) (es : List (String × Ent)),
      resolve t (toSegs (LocalStorageDriver.fullPath root dir)) = some (.dir es) →
        LocalStorageDriver.listFiles root t dir false =
          some (((es.filter (fun ne => isFile ne.2)).map
            (fun ne => toSegs dir ++ [ne.1])).map segsToStr)) ∧
    (∀ (bucket : List (String × String)) (pfx : String) (r₁ r₂ : Bool),
      S3StorageDriver.listFiles bucket pfx r₁ =
        (bucket.filter (fun kv => strStartsWith kv.1 pfx)).map Prod.fst ∧
      S3StorageDriver.listFiles bucket pfx r₁ =
        S3StorageDriver.listFiles bucket pfx r₂) := by
  refine ⟨fun es dirp rec => rfl, ?_, fun bucket pfx r₁ r₂ => ⟨rfl, rfl⟩⟩
  intro root dir t es h
  have hres : LocalStorageDriver.listFiles root t dir false =
      some ((LocalStorageDriver.listFilesEnt.listFilesEntries es
        (toSegs dir) false).map segsToStr) := by
    unfold LocalStorageDriver.listFiles
    rw [h]
    rfl
  rw [hres, listFilesEntries_nonrecursive]

/-- C5: validating a token against a request returns the stored target
path exactly when the token is in the table, is not expired
(`now > expiresAt` is the eviction test, so the expiry instant itself is
still valid), and each truthy recorded constraint is matched by the
request (`remoteAddress` against `ip`, the `x-device-id` header against
`deviceId`); in every other case — unknown token, expired token, IP or
device mismatch — the result is the same `null`.  An expired token is
evicted from the table on the lookup; every other lookup leaves the
table unchanged. -/
theorem claim5_validateTempToken
    (links : List (String × LocalStorageDriver.TempLinkEntry)) (now : Nat)
    (token p : String) (r : LocalStorageDriver.ReqInfo) :
    ((LocalStorageDriver.validateTempToken links now token (some r)).1 = some p ↔
      ∃ e, lookupA links token = some e ∧ e.path = p ∧ ¬ now > e.expiresAt ∧
        (truthyStr e.ip = true → r.remoteAddress = e.ip) ∧
        (truthyStr e.deviceId = true → r.deviceIdHeader = e.deviceId)) ∧
    (∀ e, lookupA links token = some e → now > e.expiresAt →
      (LocalStorageDriver.validateTempToken links now token (some r)).2 =
        removeA links token) ∧
    (∀ e, lookupA links token = some e → ¬ now > e.expiresAt →
      (LocalStorageDriver.validateTempToken links now token (some r)).2 = links) := by
  cases hl : lookupA links token with
  | none =>
    refine ⟨by simp [LocalStorageDriver.validateTempToken, hl], ?_, ?_⟩
    · intro e he; simp [hl] at he
    · intro e he; simp [hl] at he
  | some e =>
    simp only [LocalStorageDriver.validateTempToken, hl]
    split_ifs with hexp hip hdev
    · -- expired: the result is (none, removeA links token)
      refine ⟨?_, fun e' _ _ => rfl, fun e' he' hne => ?_⟩
      · simp [hl, hexp]
      · injection he' with he''
        subst he''
        exact absurd hexp hne
    · -- truthy recorded ip, mismatching request ip: (none, links)
      simp only [Bool.and_eq_true, decide_eq_true_eq] at hip
      refine ⟨?_, fun e' he' hexp' => ?_, fun e' _ _ => rfl⟩
      · simp only [Option.some.injEq, hl]
        constructor
        · intro hfalse; exact absurd hfalse (by simp)
        · rintro ⟨e', rfl, hpath, hne, hipimp, hdevimp⟩
          exact absurd (hipimp hip.1) hip.2
      · injection he' with he''
        subst he''
        exact absurd hexp' hexp
    · -- truthy recorded deviceId, mismatching request header: (none, links)
      simp only [Bool.and_eq_true, decide_eq_true_eq] at hdev
      refine ⟨?_, fun e' he' hexp' => ?_, fun e' _ _ => rfl⟩
      · simp only [Option.some.injEq, hl]
        constructor
        · intro hfalse; exact absurd hfalse (by simp)
        · rintro ⟨e', rfl, hpath, hne, hipimp, hdevimp⟩
          exact absurd (hdevimp hdev.1) hdev.2
      · injection he' with he''
        subst he''
        exact absurd hexp' hexp
    · -- valid: the result is (some e.path, links)
      simp only [Bool.and_eq_true, decide_eq_true_eq, not_and, not_not] at hip hdev
      refine ⟨?_, fun e' he' hexp' => ?_, fun e' _ _ => rfl⟩
      · simp only [Option.some.injEq, hl]
        constructor
        · intro hpath
          exact ⟨e, rfl, hpath, hexp, fun ht => hip ht, fun ht => hdev ht⟩
        · rintro ⟨e', rfl, hpath, hne, hipimp, hdevimp⟩
          exact hpath
      · injection he' with he''
        subst he''
        exact absurd hexp' hexp

/-- Helper: in a list with pairwise-distinct keys, two members with the
same key are the same pair. -/
theorem nodupKeys_eq {α : Type} {l : List (String × α)}
    (h : (l.map Prod.fst).Nodup) {a b : String × α}
    (ha : a ∈ l) (hb : b ∈ l) (hk : a.1 = b.1) : a = b := by
  induction l with
  | nil => cases ha
  | cons hd tl ih =>
    simp only [List.map_cons, List.nodup_cons] at h
    obtain ⟨hnot, h'⟩ := h
    rcases List.mem_cons.mp ha with rfl | ha'
    · rcases List.mem_cons.mp hb with rfl | hb'
      · rfl
      · exact absurd (hk ▸ List.mem_map_of_mem Prod.fst hb') hnot
    · rcases List.mem_cons.mp hb with rfl | hb'
      · exact absurd (hk ▸ List.mem_map_of_mem Prod.fst ha') hnot
      · exact ih h' ha' hb'

/-- Helper for C9: the central-index sweep deletes exactly the remote
objects whose recorded expiry is strictly past, removes exactly their
records, and counts them — provided the swept entries have distinct,
already-normalized keys that all resolve to existing remote files. -/
theorem sweepIndex_spec (now : Nat) (l : List (String × Nat)) :
    ∀ st : FTPStorageDriver.FtpState,
    (l.map Prod.fst).Nodup →
    (∀ fe ∈ l, FTPStorageDriver.normalizeRemotePath fe.1 = fe.1) →
    (∀ fe ∈ l, now > fe.2 → (lookupA st.remote fe.1).isSome = true) →
    FTPStorageDriver.sweepIndex now l st =
      ((l.filter (fun fe => decide (now > fe.2))).length,
       { remote := st.remote.filter
           (fun pc => decide (pc.1 ∉ FTPStorageDriver.expiredKeys now l)),
         index := st.index.filter
           (fun fe => decide (fe.1 ∉ FTPStorageDriver.expiredKeys now l)) }) := by
  induction l with
  | nil =>
    intro st _ _ _
    simp [FTPStorageDriver.sweepIndex, FTPStorageDriver.expiredKeys]
  | cons hd rest ih =>
    intro st hnodup hnorm hpres
    obtain ⟨f, e⟩ := hd
    simp only [List.map_cons, List.nodup_cons] at hnodup
    obtain ⟨hfnot, hnodup'⟩ := hnodup
    have hnormf : FTPStorageDriver.normalizeRemotePath f = f :=
      hnorm (f, e) (List.mem_cons_self _ _)
    have hnorm' : ∀ fe ∈ rest, FTPStorageDriver.normalizeRemotePath fe.1 = fe.1 :=
      fun fe hfe => hnorm fe (List.mem_cons_of_mem _ hfe)
    by_cases hexp : now > e
    · have hpre := hpres (f, e) (List.mem_cons_self _ _) hexp
      obtain ⟨c, hc⟩ : ∃ c, lookupA st.remote f = some c := by
        cases h : lookupA st.remote f with
        | none => rw [h] at hpre; simp at hpre
        | some c => exact ⟨c, rfl⟩
      have hdel : FTPStorageDriver.delete st f =
          some ⟨removeA st.remote f, st.index⟩ := by
        simp [FTPStorageDriver.delete, hnormf, hc]
      have hpres' : ∀ fe ∈ rest, now > fe.2 →
          (lookupA (removeA st.remote f) fe.1).isSome = true := by
        intro fe hfe hx
        have hne : fe.1 ≠ f := by
          intro hEq
          exact hfnot (hEq ▸ List.mem_map_of_mem Prod.fst hfe)
        rw [lookupA_removeA_ne _ _ _ hne]
        exact hpres fe (List.mem_cons_of_mem _ hfe) hx
      have ihs := ih ⟨removeA st.remote f, removeA st.index f⟩ hnodup' hnorm' hpres'
      have hkeys : FTPStorageDriver.expiredKeys now ((f, e) :: rest) =
          f :: FTPStorageDriver.expiredKeys now rest := by
        simp [FTPStorageDriver.expiredKeys, List.filter_cons, hexp]
      simp only [FTPStorageDriver.sweepIndex, if_pos hexp, hdel]
      rw [ihs, hkeys]
      simp only [List.filter_cons, hexp, decide_True, if_true, List.length_cons,
        removeA, List.filter_filter, List.mem_cons, not_or, Bool.decide_and,
        decide_not]
      simp only [Prod.mk.injEq, FTPStorageDriver.FtpState.mk.injEq]
      refine ⟨trivial, ?_, ?_⟩ <;>
        exact List.filter_congr (fun a _ => by simp [Bool.and_comm])
    · have hpres' : ∀ fe ∈ rest, now > fe.2 →
          (lookupA st.remote fe.1).isSome = true :=
        fun fe hfe hx => hpres fe (List.mem_cons_of_mem _ hfe) hx
      have ihs := ih st hnodup' hnorm' hpres'
      have hkeys : FTPStorageDriver.expiredKeys now ((f, e) :: rest) =
          FTPStorageDriver.expiredKeys now rest := by
        simp [FTPStorageDriver.expiredKeys, List.filter_cons, hexp]
      simp only [FTPStorageDriver.sweepIndex, if_neg hexp]
      rw [ihs, hkeys]
      simp [List.filter_cons, hexp]

/-- C9 counterexample: an object whose recorded expiry instant is
exactly the current instant is NOT deleted — the sweep tests
`now > expiresAt` strictly — so the claim's "at or before (including
exactly equal)" fails: the sweep returns a count of 0 and keeps both
the object and its record. -/
theorem claim9_counterexample :
    FTPStorageDriver.deleteExpiredFiles ⟨[("f", "c")], [("f", 100)]⟩ 100 =
      (0, ⟨[("f", "c")], [("f", 100)]⟩) := by decide

/-- C9 amended: `deleteExpiredFiles()` deletes every recorded object
whose expiry instant is strictly before the current instant — an expiry
exactly equal to the current instant is not yet expired and is kept —
removes exactly those objects' expiry records, and returns exactly the
count deleted; stated for the FTP central-index sweep (the SFTP sweep
is the same function), under the sweep's implicit preconditions that
the index keys are distinct, already slash-normalized, and that every
expired record's object still exists remotely (a failed delete is
silently skipped and its record kept). -/
theorem claim9_sweep_amended (st : FTPStorageDriver.FtpState) (now : Nat)
    (hnodup : (st.index.map Prod.fst).Nodup)
    (hnorm : ∀ fe ∈ st.index, FTPStorageDriver.normalizeRemotePath fe.1 = fe.1)
    (hpres : ∀ fe ∈ st.index, now > fe.2 →
      (lookupA st.remote fe.1).isSome = true) :
    FTPStorageDriver.deleteExpiredFiles st now =
      ((st.index.filter (fun fe => decide (now > fe.2))).length,
       { remote := st.remote.filter
           (fun pc => decide (pc.1 ∉ FTPStorageDriver.expiredKeys now st.index)),
         index := st.index.filter (fun fe => decide (¬ now > fe.2)) }) ∧
    SFTPStorageDriver.deleteExpiredFiles st now =
      FTPStorageDriver.deleteExpiredFiles st now := by
  have hmain := sweepIndex_spec now st.index st hnodup hnorm hpres
  refine ⟨?_, rfl⟩
  unfold FTPStorageDriver.deleteExpiredFiles
  rw [hmain]
  simp only [Prod.mk.injEq, FTPStorageDriver.FtpState.mk.injEq]
  refine ⟨trivial, trivial, ?_⟩
  apply List.filter_congr
  intro a ha
  refine decide_eq_decide.mpr ?_
  constructor
  · intro hnot hgt
    exact hnot (List.mem_map_of_mem Prod.fst
      (List.mem_filter.mpr ⟨ha, by simp [hgt]⟩))
  · intro hne hmem
    simp only [FTPStorageDriver.expiredKeys, List.mem_map] at hmem
    obtain ⟨b, hbf, hbk⟩ := hmem
    have hbmem := (List.mem_filter.mp hbf).1
    have hbgt : now > b.2 := by simpa using (List.mem_filter.mp hbf).2
    have hba : b = a := nodupKeys_eq hnodup hbmem ha hbk
    exact hne (hba ▸ hbgt)

/-- C9 witness: the amended statement at a concrete state holding a
strictly expired object `a` (expiry 50, now 100) and a live object `b`
(expiry 500): the sweep deletes `a`, drops its record and returns 1. -/
theorem claim9_sweep_amended_witness :
    FTPStorageDriver.deleteExpiredFiles
        ⟨[("a", "x"), ("b", "y")], [("a", 50), ("b", 500)]⟩ 100 =
      (([("a", 50), ("b", 500)].filter (fun fe => decide (100 > fe.2))).length,
       { remote := [("a", "x"), ("b", "y")].filter
           (fun pc => decide
             (pc.1 ∉ FTPStorageDriver.expiredKeys 100 [("a", 50), ("b", 500)])),
         index := [("a", 50), ("b", 500)].filter
           (fun fe => decide (¬ 100 > fe.2)) }) ∧
    SFTPStorageDriver.deleteExpiredFiles
        ⟨[("a", "x"), ("b", "y")], [("a", 50), ("b", 500)]⟩ 100 =
      FTPStorageDriver.deleteExpiredFiles
        ⟨[("a", "x"), ("b", "y")], [("a", 50), ("b", 500)]⟩ 100 :=
  claim9_sweep_amended ⟨[("a", "x"), ("b", "y")], [("a", 50), ("b", 500)]⟩ 100
    (by decide) (by decide) (by decide)

end NestFS
